import Mathlib

/-!
Model of the Audius creator-node replica-set synchronization subsystem.

The definitions below are a shallow embedding of the JavaScript sources:

* `src/creator-node/src/FileProcessingQueue.js` (job queue status tracking)
* `src/creator-node/src/services/sync/processSync.js` (the sync executor)
* `src/creator-node/src/utils.js` (`findCIDInNetwork`)
* the `ServiceRegistry` bootstrap loops (`_recoverNodeL1Identity`,
  `_registerNodeOnL2URSM`)

External effects (redis writes, database transactions, network fetches) are
made explicit: redis is a list of held lock keys plus a list of status
writes, the database is a record of association-list tables, and each
network operation is an oracle parameter.  Modules the sources require but
that are not themselves available (the redis helper, DBManager,
UserSyncFailureCountManager, the `models` table definitions,
`saveFileForMultihashToFS`) are modelled from the specification and marked
as such in their doc comments.
-/

namespace Audius

/-! ## FileProcessingQueue: process states and status records -/

/-- The `PROCESS_STATES` constants of FileProcessingQueue.js: the status of a
job is IN_PROGRESS, DONE (carrying the handler response), or FAILED
(carrying the error message). -/
inductive ProcessState where
  | inProgress
  | jobDone (resp : String)
  | jobFailed (msg : String)
deriving DecidableEq, Repr

/-- Function `constructProcessKey` of FileProcessingQueue.js: the redis key for a
job-status record is the task type and the request uuid joined by ":::". -/
def constructProcessKey (taskType uuid : String) : String :=
  taskType ++ ":::" ++ uuid

/-- The `EXPIRATION` constant of FileProcessingQueue.js: 24 hours in
seconds, used as the TTL of every status record write. -/
def expirationSeconds : Nat := 86400

/-- One `redisClient.set(key, JSON.stringify(state), 'EX', EXPIRATION)`
call recorded by the model. -/
structure RedisWrite where
  key : String
  value : ProcessState
  ttlSeconds : Nat
deriving DecidableEq, Repr

/-- Method `FileProcessingQueue.monitorProgress`: writes an IN_PROGRESS status
record before running the handler; on success writes DONE with the response
and returns it; on an exception writes FAILED with the error message and
rethrows.  The handler outcome is passed in as an `Except`; the result is
the list of redis writes performed plus the propagated outcome. -/
def monitorProgress (taskType uuid : String) (handler : Except String String) :
    List RedisWrite × Except String String :=
  let key := constructProcessKey taskType uuid
  let startWrite : RedisWrite := ⟨key, ProcessState.inProgress, expirationSeconds⟩
  match handler with
  | Except.ok resp =>
      ([startWrite, ⟨key, ProcessState.jobDone resp, expirationSeconds⟩], Except.ok resp)
  | Except.error e =>
      ([startWrite, ⟨key, ProcessState.jobFailed e, expirationSeconds⟩], Except.error e)

/-- How the bull queue processor callback terminates a job: `done(null,
{response})` on success or `done(e.toString())` on a caught exception. -/
inductive JobCompletion where
  | completed (resp : String)
  | errored (msg : String)
deriving DecidableEq, Repr

/-- The two underlying processing functions imported by
FileProcessingQueue.js from tracksComponentService
(`handleTrackContentRoute` as `trackContentUpload`,
`handleTranscodeAndSegment` as `transcodeAndSegment`), as oracles from the
job params to an outcome. -/
structure ProcessingFns where
  trackContentUpload : String → Except String String
  transcodeAndSegment : String → Except String String

/-- The processor callback registered under `PROCESS_NAMES.trackContentUpload`
(FileProcessingQueue.js lines 45-70): runs `trackContentUpload` through
`monitorProgress` under the `trackContentUpload` task label, completing the
job with the response or, when the handler threw, with the error. -/
def trackContentUploadProcessor (fns : ProcessingFns) (uuid params : String) :
    List RedisWrite × JobCompletion :=
  match monitorProgress "trackContentUpload" uuid (fns.trackContentUpload params) with
  | (writes, Except.ok resp) => (writes, JobCompletion.completed resp)
  | (writes, Except.error e) => (writes, JobCompletion.errored e)

/-- The processor callback registered under `PROCESS_NAMES.transcodeAndSegment`
(FileProcessingQueue.js lines 72-97).  As in the source, the body invokes
`monitorProgress` with `PROCESS_NAMES.trackContentUpload` as the task label
and `trackContentUpload` as the processing function. -/
def transcodeAndSegmentProcessor (fns : ProcessingFns) (uuid params : String) :
    List RedisWrite × JobCompletion :=
  match monitorProgress "trackContentUpload" uuid (fns.trackContentUpload params) with
  | (writes, Except.ok resp) => (writes, JobCompletion.completed resp)
  | (writes, Except.error e) => (writes, JobCompletion.errored e)

/-! ## Sync executor: data model (processSync.js) -/

/-- A File row as carried by an export payload and stored in the File
table: content multihash, storage path, type (one of track, copy320,
metadata, image, dir), optional file name (dir-style images), optional
track blockchain id, and the skipped flag. -/
structure FileRec where
  multihash : String
  storagePath : String
  fileType : String
  fileName : Option String
  trackBlockchainId : Option Nat
  skipped : Bool
deriving DecidableEq, Repr

/-- A ClockRecord row of an export payload; only the clock value is
relevant to the sync executor's checks. -/
structure ClockRecordRow where
  clock : Int
deriving DecidableEq, Repr

/-- One entry of `body.data.cnodeUsers` in an export response: the user
record fields read by processSync.js plus the associated entity lists. -/
structure FetchedCNodeUser where
  walletPublicKey : String
  clock : Int
  latestBlockNumber : Int
  clockRecords : List ClockRecordRow
  files : List FileRec
  tracks : List Nat
  audiusUsers : List Nat
deriving DecidableEq, Repr

/-- The CNodeUsers table columns that processSync.js reads and writes
(`cnodeUserUUID` is node-local and in bijection with the wallet here, so
tables are keyed by wallet directly). -/
structure CNodeUserRow where
  clock : Int
  latestBlockNumber : Int
deriving DecidableEq, Repr

/-- The local database: users, clock records, files, tracks and
audius-user rows, each keyed by the owning wallet. -/
structure DB where
  users : List (String × CNodeUserRow)
  clockRecords : List (String × Int)
  files : List (String × FileRec)
  tracks : List (String × Nat)
  audiusUsers : List (String × Nat)
deriving DecidableEq, Repr

/-- Modelled from the spec: `DBManager.deleteAllCNodeUserDataFromDB`
(the DBManager module is not among the sources).  Per §4.1,
`truncate(user)` deletes all rows for the user (cascade); it is used only
by the `force_resync` path. -/
def deleteAllCNodeUserDataFromDB (wallet : String) (db : DB) : DB :=
  { users := db.users.filter (fun p => p.1 ≠ wallet)
    clockRecords := db.clockRecords.filter (fun p => p.1 ≠ wallet)
    files := db.files.filter (fun p => p.1 ≠ wallet)
    tracks := db.tracks.filter (fun p => p.1 ≠ wallet)
    audiusUsers := db.audiusUsers.filter (fun p => p.1 ≠ wallet) }

/-! ## Sync executor: redis locks and failure counts -/

/-- Modelled from the spec: `redis.getNodeSyncRedisKey(wallet)` (the redis
helper module is not among the sources).  §6 gives the coordination-store
key space for the per-wallet sync lock as `node_sync:{wallet}`. -/
def getNodeSyncRedisKey (wallet : String) : String :=
  "node_sync:" ++ wallet

/-- Modelled from the spec: `redisLock.getLock(key)` — whether the
exclusive per-user lock at `key` is currently held in the coordination
store (the redis helper module is not among the sources). -/
def getLock (key : String) (locks : List String) : Bool :=
  locks.contains key

/-- Modelled from the spec: `redisLock.setLock(key)` — acquire the
exclusive lock at `key` (the redis helper module is not among the
sources; the TTL guard is not modelled). -/
def setLock (key : String) (locks : List String) : List String :=
  key :: locks

/-- Modelled from the spec: `redisLock.removeLock(key)` — release the lock
at `key`; releasing an unheld lock is a no-op (the redis helper module is
not among the sources). -/
def removeLock (key : String) (locks : List String) : List String :=
  locks.filter (fun k => k ≠ key)

/-- Modelled from the spec:
`UserSyncFailureCountManager.incrementFailureCount(wallet)` (the module is
not among the sources).  §4.3 step 7: increments the in-memory per-user
sync failure count and yields the new value; a wallet never seen before
counts from 0. -/
def incrementFailureCount (wallet : String) (fc : List (String × Nat)) :
    Nat × List (String × Nat) :=
  let n := ((fc.lookup wallet).getD 0) + 1
  (n, (wallet, n) :: fc.filter (fun p => p.1 ≠ wallet))

/-- Modelled from the spec:
`UserSyncFailureCountManager.resetFailureCount(wallet)` (the module is not
among the sources): resets the per-user sync failure count to 0. -/
def resetFailureCount (wallet : String) (fc : List (String × Nat)) :
    List (String × Nat) :=
  (wallet, 0) :: fc.filter (fun p => p.1 ≠ wallet)

/-! ## Sync executor: content fetch -/

/-- Modelled from the spec: `models.File.TrackTypes` (the models module is
not among the sources).  §3 lists the file types as track, image,
metadata, copy320, dir, and §4.3 step 6 partitions files into the
track-audio variants (track, copy320) and the rest. -/
def TrackTypes : List String := ["track", "copy320"]

/-- Modelled from the spec: `models.File.NonTrackTypes` (the models module
is not among the sources): the non-track-audio file types. -/
def NonTrackTypes : List String := ["metadata", "image", "dir"]

/-- The `trackFiles` partition computed in processSync.js: files whose
type is in `models.File.TrackTypes`. -/
def trackFilesOf (u : FetchedCNodeUser) : List FileRec :=
  u.files.filter (fun f => TrackTypes.contains f.fileType)

/-- The `nonTrackFiles` partition computed in processSync.js: files whose
type is in `models.File.NonTrackTypes`. -/
def nonTrackFilesOf (u : FetchedCNodeUser) : List FileRec :=
  u.files.filter (fun f => NonTrackTypes.contains f.fileType)

/-- The `CIDsThatFailedSaveFileOp` set after both batched save loops.
Every track file and every non-directory non-track file goes through
`saveFileForMultihashToFS` (modelled from the spec as the oracle `saveOk`
keyed by multihash, since the fileManager module is not among the
sources); the multihashes of failed saves are collected, deduplicated as
in a JS Set.  Directory-type files are skipped structurally. -/
def failedCIDs (saveOk : String → Bool) (u : FetchedCNodeUser) : List String :=
  (((trackFilesOf u).map FileRec.multihash) ++
    (((nonTrackFilesOf u).filter (fun f => f.fileType ≠ "dir")).map FileRec.multihash)).dedup.filter
    (fun m => ¬ saveOk m)

/-! ## Sync executor: errors and outcomes -/

/-- The errors processSync.js can throw that are relevant to the claims
(each is a `new Error(...)` in the source; the message strings are
abstracted to tagged kinds). -/
inductive SyncError where
  | syncInProgress (wallet : String)
  | malformedResponse
  | exportRegression (localClock fetchedClock : Int)
  | exportNonContiguous (localClock importedMinClock : Int)
  | contentFetchFailed (numFailed failureCount : Nat)
deriving DecidableEq, Repr

/-- Outcome of the per-user loop body of processSync.js for one fetched
cnodeUser.  `preTransactionError` marks throws raised before
`models.sequelize.transaction()` is opened (lines 203-240);
`transactionError` marks throws inside the transaction, which roll the
database back but keep the in-memory failure-count update;
`committedUser` carries the database after `transaction.commit()`;
`skippedUser` is the already-up-to-date `continue`. -/
inductive UserSyncOutcome where
  | preTransactionError (e : SyncError)
  | skippedUser
  | transactionError (e : SyncError) (failureCounts : List (String × Nat))
  | committedUser (db : DB) (failureCounts : List (String × Nat))
deriving DecidableEq, Repr

/-- The guard `fetchedClockRecords[0] && fetchedClockRecords[0].clock !==
localMaxClockVal + 1` of processSync.js line 234-235: true when a first
clock record exists and its clock is not the local max clock plus one;
false (falsy first element) when the records list is empty. -/
def firstClockMismatch (records : List ClockRecordRow) (localMaxClockVal : Int) : Bool :=
  match records.head? with
  | some r => r.clock != localMaxClockVal + 1
  | none => false

/-- The database state written inside the transaction for one fetched
cnodeUser (processSync.js lines 248-535): upsert the CNodeUser row with
the fetched clock and block number; append all fetched clock records;
append the non-track files (with `trackBlockchainId` nulled) and then the
track files, marking a file skipped when its multihash failed to save;
append tracks and audius-user rows.  All rows are keyed by the local
user (the local `cnodeUserUUID` in the source). -/
def commitFetchedCNodeUser (u : FetchedCNodeUser) (failed : List String) (db : DB) : DB :=
  let w := u.walletPublicKey
  let markSkipped : FileRec → FileRec := fun f =>
    if failed.contains f.multihash then { f with skipped := true } else f
  { users := (w, ⟨u.clock, u.latestBlockNumber⟩) :: db.users.filter (fun p => p.1 ≠ w)
    clockRecords := db.clockRecords ++ u.clockRecords.map (fun r => (w, r.clock))
    files := db.files ++
      (nonTrackFilesOf u).map (fun f => (w, { markSkipped f with trackBlockchainId := none })) ++
      (trackFilesOf u).map (fun f => (w, markSkipped f))
    tracks := db.tracks ++ u.tracks.map (fun t => (w, t))
    audiusUsers := db.audiusUsers ++ u.audiusUsers.map (fun a => (w, a)) }

/-- The body of the `for (const fetchedCNodeUser of ...)` loop of
processSync.js for one fetched cnodeUser: the requested-wallet check, the
clock comparison checks (export regression, already up to date,
non-contiguity), then the transaction with content fetch, failure-count
gating against `SyncRequestMaxUserFailureCountBeforeSkip`, and commit. -/
def processFetchedCNodeUser (threshold : Nat) (saveOk : String → Bool)
    (walletPublicKeys : List String) (localMaxClockVal : Int)
    (db : DB) (fc : List (String × Nat)) (u : FetchedCNodeUser) : UserSyncOutcome :=
  if ¬ walletPublicKeys.contains u.walletPublicKey then
    UserSyncOutcome.preTransactionError SyncError.malformedResponse
  else if u.clock < localMaxClockVal then
    UserSyncOutcome.preTransactionError
      (SyncError.exportRegression localMaxClockVal u.clock)
  else if u.clock = localMaxClockVal then
    UserSyncOutcome.skippedUser
  else if localMaxClockVal ≠ -1 ∧ firstClockMismatch u.clockRecords localMaxClockVal = true then
    UserSyncOutcome.preTransactionError
      (SyncError.exportNonContiguous localMaxClockVal
        ((u.clockRecords.head?.map ClockRecordRow.clock).getD 0))
  else
    let failed := failedCIDs saveOk u
    if 0 < failed.length then
      let incr := incrementFailureCount u.walletPublicKey fc
      if incr.1 < threshold then
        UserSyncOutcome.transactionError
          (SyncError.contentFetchFailed failed.length incr.1) incr.2
      else
        UserSyncOutcome.committedUser (commitFetchedCNodeUser u failed db)
          (resetFailureCount u.walletPublicKey incr.2)
    else
      UserSyncOutcome.committedUser (commitFetchedCNodeUser u failed db)
        (resetFailureCount u.walletPublicKey fc)

/-- Release the lock named by `redisKeyOpt`, when any: the source's
`redisKey` variable holds the key of the last wallet in the acquisition
loop and is released again after each commit (line 536) and each rollback
(line 553). -/
def removeLockOpt (redisKeyOpt : Option String) (locks : List String) : List String :=
  match redisKeyOpt with
  | some k => removeLock k locks
  | none => locks

/-- The `for (const fetchedCNodeUser of Object.values(body.data.cnodeUsers))`
loop of processSync.js: processes each fetched cnodeUser in order; a
pre-transaction throw propagates with the database and locks unchanged; a
transaction throw propagates after rollback (database unchanged, failure
counts kept, `redisKey` released); a commit updates the database, failure
counts, and releases `redisKey` before the next iteration. -/
def processCNodeUsers (threshold : Nat) (saveOk : String → Bool)
    (walletPublicKeys : List String) (localMaxClockVal : Int)
    (redisKeyOpt : Option String) :
    DB → List (String × Nat) → List String → List FetchedCNodeUser →
    Option SyncError × DB × List (String × Nat) × List String
  | db, fc, locks, [] => (none, db, fc, locks)
  | db, fc, locks, u :: rest =>
    match processFetchedCNodeUser threshold saveOk walletPublicKeys localMaxClockVal db fc u with
    | UserSyncOutcome.preTransactionError e => (some e, db, fc, locks)
    | UserSyncOutcome.skippedUser =>
        processCNodeUsers threshold saveOk walletPublicKeys localMaxClockVal redisKeyOpt
          db fc locks rest
    | UserSyncOutcome.transactionError e fc' =>
        (some e, db, fc', removeLockOpt redisKeyOpt locks)
    | UserSyncOutcome.committedUser db' fc' =>
        processCNodeUsers threshold saveOk walletPublicKeys localMaxClockVal redisKeyOpt
          db' fc' (removeLockOpt redisKeyOpt locks) rest

/-! ## Sync executor: top level -/

/-- The lock-acquisition loop of processSync.js lines 51-61: for each
wallet in order, if its lock is already held return that wallet (the
source builds the SyncInProgress error and returns immediately, without
releasing the locks already taken); otherwise take the lock and continue. -/
def acquireLocks : List String → List String → Option String × List String
  | [], locks => (none, locks)
  | w :: rest, locks =>
    let key := getNodeSyncRedisKey w
    if getLock key locks then (some w, locks)
    else acquireLocks rest (setLock key locks)

/-- The clock-baseline step of processSync.js lines 69-79: under
`forceResync` delete all of the first wallet's data and take -1 as the
local max clock value; otherwise read the stored user's clock, or -1 when
no user row exists.  Returns the (possibly truncated) database and the
local max clock value. -/
def computeLocalMaxClockVal (forceResync : Bool) (wallet : String) (db : DB) : DB × Int :=
  if forceResync then (deleteAllCNodeUserDataFromDB wallet db, -1)
  else (db, (db.users.lookup wallet).elim (-1) CNodeUserRow.clock)

/-- The query parameters of the `/export` request issued by processSync.js
lines 89-92 (the `source_endpoint` logging parameter is omitted). -/
structure ExportReq where
  walletPublicKeys : List String
  clockRangeMin : Int
deriving DecidableEq, Repr

/-- The mutable state processSync touches: the database, the held
coordination-store locks, and the in-memory per-user sync failure
counts. -/
structure SyncState where
  db : DB
  locks : List String
  failureCounts : List (String × Nat)
deriving DecidableEq, Repr

/-- The observable result of one processSync invocation: the returned
`errorObj` (null on success), the final state, and the export request the
invocation issued (none when it returned before fetching the export). -/
structure SyncResult where
  errorObj : Option SyncError
  state : SyncState
  exportReq : Option ExportReq
deriving DecidableEq, Repr

/-- Function `processSync` of processSync.js.  `exportedUsers` stands for
`Object.values(body.data.cnodeUsers)` of a well-formed 200 export
response (the HTTP fetch, response-shape checks and IPFS peering have no
bearing on the claims and are elided).  Steps: acquire every wallet's
lock, returning early with SyncInProgress — and without any lock
release — when one is already held; compute the clock baseline from the
first wallet (truncating under forceResync); form the export request with
`clock_range_min = localMaxClockVal + 1`; run the per-user loop; finally
release the locks of all wallets in the job. -/
def processSync (threshold : Nat) (saveOk : String → Bool)
    (exportedUsers : List FetchedCNodeUser) (walletPublicKeys : List String)
    (forceResync : Bool) (st : SyncState) : SyncResult :=
  match acquireLocks walletPublicKeys st.locks with
  | (some w, locks') =>
      { errorObj := some (SyncError.syncInProgress w)
        state := { st with locks := locks' }
        exportReq := none }
  | (none, locks') =>
      let wallet := walletPublicKeys.headD ""
      let base := computeLocalMaxClockVal forceResync wallet st.db
      let exportReq : ExportReq :=
        { walletPublicKeys := walletPublicKeys, clockRangeMin := base.2 + 1 }
      let redisKeyOpt := walletPublicKeys.getLast?.map getNodeSyncRedisKey
      let run := processCNodeUsers threshold saveOk walletPublicKeys base.2 redisKeyOpt
        base.1 st.failureCounts locks' exportedUsers
      let finalLocks := walletPublicKeys.foldl
        (fun ls w => removeLock (getNodeSyncRedisKey w) ls) run.2.2.2
      { errorObj := run.1
        state := { db := run.2.1, locks := finalLocks, failureCounts := run.2.2.1 }
        exportReq := some exportReq }

/-! ## findCIDInNetwork (utils.js) -/

/-- What one creator node's `/file_lookup` request can yield in
`findCIDInNetwork`: an axios exception or timeout (the `catch (e)
... continue` path), a response with falsy `resp.data`, or a response
stream carrying content bytes. -/
inductive FetchAttempt where
  | errored
  | noData
  | withData (content : String)
deriving DecidableEq, Repr

/-- The result of `findCIDInNetwork`: the returned `found` boolean and the
file system afterwards (paths mapped to contents). -/
structure FindResult where
  found : Bool
  fsFiles : List (String × String)
deriving DecidableEq, Repr

/-- Function `writeStreamToFileSystem` of utils.js, reduced to its file-system
effect: the response stream's bytes end up at `filePath`. -/
def writeStreamToFileSystem (filePath content : String)
    (fs : List (String × String)) : List (String × String) :=
  (filePath, content) :: fs.filter (fun p => p.1 ≠ filePath)

/-- Call `fs.unlink(filePath)`: remove the file at `filePath`. -/
def unlinkFile (filePath : String) (fs : List (String × String)) :
    List (String × String) :=
  fs.filter (fun p => p.1 ≠ filePath)

/-- The `for (let index = 0; ...)` loop over registered creator nodes in
`findCIDInNetwork` (utils.js lines 272-311).  A failed request continues
to the next node, as does a response with falsy data.  A response with
data is written to `filePath` and its multihash recomputed (the `hash`
oracle stands for `generateNonImageMultihash`); on a mismatch the file is
unlinked and an error logged — after which the source still sets
`found = true` and breaks, exactly as it does on a match. -/
def findCIDInNetworkLoop (hash : String → String) (filePath cid : String) :
    List FetchAttempt → List (String × String) → FindResult
  | [], fs => ⟨false, fs⟩
  | FetchAttempt.errored :: rest, fs => findCIDInNetworkLoop hash filePath cid rest fs
  | FetchAttempt.noData :: rest, fs => findCIDInNetworkLoop hash filePath cid rest fs
  | FetchAttempt.withData content :: rest, fs =>
      let fs1 := writeStreamToFileSystem filePath content fs
      let fs2 := if cid ≠ hash content then unlinkFile filePath fs1 else fs1
      ⟨true, fs2⟩

/-- Function `findCIDInNetwork` of utils.js: returns early (falsy) when a state fix
was already attempted for `filePath` or no creator nodes are registered;
otherwise walks the (already exclude-filtered) node list with
`findCIDInNetworkLoop`. -/
def findCIDInNetwork (hash : String → String) (attemptedStateFix : Bool)
    (filePath cid : String) (nodes : List FetchAttempt)
    (fs : List (String × String)) : FindResult :=
  if attemptedStateFix then ⟨false, fs⟩
  else if nodes.isEmpty then ⟨false, fs⟩
  else findCIDInNetworkLoop hash filePath cid nodes fs

/-! ## Identity bootstrap (ServiceRegistry) -/

/-- Result of a terminating run of `_recoverNodeL1Identity`: the spID
stored into config, the number of `getServiceProviderIdFromEndpoint`
attempts made, and the `utils.timeout` waits performed between them, in
milliseconds. -/
structure RecoveryOutcome where
  spID : Nat
  attempts : Nat
  waitsMs : List Nat
deriving DecidableEq, Repr

/-- Method `ServiceRegistry._recoverNodeL1Identity`: loop until
`getServiceProviderIdFromEndpoint` (the oracle, indexed by attempt;
`Except.error` is a thrown-and-swallowed chain error) returns a non-zero
spID, which is stored in config; every unsuccessful attempt is followed by
a fixed `utils.timeout(5000)`.  The source loop is unbounded; `fuel`
bounds the number of attempts this model inspects, with `none` meaning the
loop is still running after `fuel` attempts. -/
def recoverNodeL1Identity (oracle : Nat → Except String Nat) :
    Nat → Nat → Option RecoveryOutcome
  | 0, _ => none
  | fuel + 1, n =>
    match oracle n with
    | Except.ok spID =>
        if spID ≠ 0 then some ⟨spID, n + 1, []⟩
        else (recoverNodeL1Identity oracle fuel (n + 1)).map
          (fun r => { r with waitsMs := 5000 :: r.waitsMs })
    | Except.error _ =>
        (recoverNodeL1Identity oracle fuel (n + 1)).map
          (fun r => { r with waitsMs := 5000 :: r.waitsMs })

/-- The `retryTimeoutMs` of the first loop of
`ServiceRegistry._registerNodeOnL2URSM`: 10 seconds in dev mode and 10
minutes otherwise. -/
def ursmPollIntervalMs (devMode : Bool) : Nat :=
  if devMode then 10000 else 600000

/-- The first loop of `_registerNodeOnL2URSM`: poll
`initUserReplicaSetManagerClient` until the `UserReplicaSetManagerClient`
handle exists (the oracle returns whether it does after the nth init
attempt; errors are swallowed), waiting `ursmPollIntervalMs` between
attempts.  Returns the waits performed, or `none` when still polling
after `fuel` attempts. -/
def waitForURSMClient (devMode : Bool) (clientReady : Nat → Except String Bool) :
    Nat → Nat → Option (List Nat)
  | 0, _ => none
  | fuel + 1, n =>
    match clientReady n with
    | Except.ok true => some []
    | Except.ok false =>
        (waitForURSMClient devMode clientReady fuel (n + 1)).map
          (fun ws => ursmPollIntervalMs devMode :: ws)
    | Except.error _ =>
        (waitForURSMClient devMode clientReady fuel (n + 1)).map
          (fun ws => ursmPollIntervalMs devMode :: ws)

/-- The second loop of `_registerNodeOnL2URSM`: run
`URSMRegistrationManager.run()` (the oracle, indexed by attempt) until one
attempt succeeds, waiting a fixed 10000 ms after each failure.  Returns
the index of the successful attempt and the waits performed. -/
def registerWithRetries (register : Nat → Except String Unit) :
    Nat → Nat → Option (Nat × List Nat)
  | 0, _ => none
  | fuel + 1, n =>
    match register n with
    | Except.ok _ => some (n, [])
    | Except.error _ =>
        (registerWithRetries register fuel (n + 1)).map
          (fun r => (r.1, 10000 :: r.2))

/-- Method `ServiceRegistry._registerNodeOnL2URSM` in full: wait for the URSM
contract client, then register with retries; the result carries the waits
of both loops and the index of the successful registration attempt. -/
def registerNodeOnL2URSM (devMode : Bool) (clientReady : Nat → Except String Bool)
    (register : Nat → Except String Unit) (fuel : Nat) :
    Option (List Nat × Nat × List Nat) :=
  match waitForURSMClient devMode clientReady fuel 0 with
  | none => none
  | some ws1 =>
    match registerWithRetries register fuel 0 with
    | none => none
    | some r => some (ws1, r.1, r.2)

/-! ## Concrete scenario: partial content failure below threshold

The literal end-to-end scenario: a secondary at clock 3 pulls an export
advancing to clock 7 with 10 files, of which 2 fail to fetch on every
attempt, under the default failure threshold of 3. -/

/-- The ith exported file of the scenario: a metadata file with multihash
`Qmi`. -/
def scenarioFile (i : Nat) : FileRec :=
  { multihash := "Qm" ++ toString i
    storagePath := "/file_storage/Qm" ++ toString i
    fileType := "metadata"
    fileName := none
    trackBlockchainId := none
    skipped := false }

/-- The save oracle of the scenario: fetching `Qm0` and `Qm1` fails on
every attempt, the other 8 files save fine. -/
def scenarioSaveOk : String → Bool := fun m => m != "Qm0" && m != "Qm1"

/-- The export payload of the scenario: wallet 0xAA at fetched clock 7
with the contiguous clock records 4..7 and ten files. -/
def scenarioUser : FetchedCNodeUser :=
  { walletPublicKey := "0xAA"
    clock := 7
    latestBlockNumber := 12
    clockRecords := [⟨4⟩, ⟨5⟩, ⟨6⟩, ⟨7⟩]
    files := (List.range 10).map scenarioFile
    tracks := []
    audiusUsers := [] }

/-- The secondary's initial state in the scenario: wallet 0xAA stored at
clock 3 with clock records 0..3, no locks held, no recorded failures. -/
def scenarioState : SyncState :=
  { db :=
      { users := [("0xAA", ⟨3, 5⟩)]
        clockRecords := [("0xAA", 0), ("0xAA", 1), ("0xAA", 2), ("0xAA", 3)]
        files := []
        tracks := []
        audiusUsers := [] }
    locks := []
    failureCounts := [] }

/-- One sync attempt of the scenario: processSync with threshold 3 on the
identical export each time. -/
def scenarioAttempt (st : SyncState) : SyncResult :=
  processSync 3 scenarioSaveOk [scenarioUser] ["0xAA"] false st

/-! ## Theorems -/

/-- C6: every job run through `monitorProgress` keeps a status record under
the key `{task}:::{request_id}` with a 24-hour (86400 s) TTL: IN_PROGRESS
is written before the handler runs, DONE with the handler response on
success, FAILED with the error message on a throw; and the queue processor
catches the rethrown exception and completes the job with an error instead
of crashing. -/
theorem monitorProgress_status_lifecycle (taskType uuid params : String)
    (handler : Except String String) (fns : ProcessingFns) :
    ((monitorProgress taskType uuid handler).1.head? =
        some ⟨constructProcessKey taskType uuid, ProcessState.inProgress, 86400⟩)
    ∧ (∀ w ∈ (monitorProgress taskType uuid handler).1,
        w.key = constructProcessKey taskType uuid ∧ w.ttlSeconds = 86400)
    ∧ (∀ resp, handler = Except.ok resp →
        monitorProgress taskType uuid handler =
          ([⟨constructProcessKey taskType uuid, ProcessState.inProgress, 86400⟩,
            ⟨constructProcessKey taskType uuid, ProcessState.jobDone resp, 86400⟩],
           Except.ok resp))
    ∧ (∀ e, handler = Except.error e →
        monitorProgress taskType uuid handler =
          ([⟨constructProcessKey taskType uuid, ProcessState.inProgress, 86400⟩,
            ⟨constructProcessKey taskType uuid, ProcessState.jobFailed e, 86400⟩],
           Except.error e))
    ∧ (∀ e, fns.trackContentUpload params = Except.error e →
        (trackContentUploadProcessor fns uuid params).2 = JobCompletion.errored e) := by
  refine ⟨?_, ?_, ?_, ?_, ?_⟩
  · cases handler <;> rfl
  · intro w hw
    cases handler <;>
      simp only [monitorProgress, expirationSeconds, List.mem_cons, List.not_mem_nil,
        or_false] at hw <;>
      rcases hw with h | h <;> subst h <;> exact ⟨rfl, rfl⟩
  · intro resp h
    subst h
    rfl
  · intro e h
    subst h
    rfl
  · intro e h
    simp [trackContentUploadProcessor, monitorProgress, h, expirationSeconds]

/-- Witness for C6 at a concrete failing handler. -/
theorem monitorProgress_status_lifecycle_witness :
    monitorProgress "trackContentUpload" "req-1" (Except.error "boom") =
      ([⟨"trackContentUpload:::req-1", ProcessState.inProgress, 86400⟩,
        ⟨"trackContentUpload:::req-1", ProcessState.jobFailed "boom", 86400⟩],
       Except.error "boom")
    ∧ (trackContentUploadProcessor
        ⟨fun _ => Except.error "boom", fun _ => Except.ok "x"⟩ "req-1" "p").2 =
        JobCompletion.errored "boom" := by
  have h := monitorProgress_status_lifecycle "trackContentUpload" "req-1" "p"
    (Except.error "boom") ⟨fun _ => Except.error "boom", fun _ => Except.ok "x"⟩
  exact ⟨h.2.2.2.1 "boom" rfl, h.2.2.2.2 "boom" rfl⟩

/-- C7: the processor registered for the `transcodeAndSegment` task runs
the same monitored function (`trackContentUpload`, under the
`trackContentUpload` task label) as the processor registered for the
`trackContentUpload` task, so the two handlers agree on every job. -/
theorem transcodeAndSegment_processor_duplicates_trackContentUpload
    (fns : ProcessingFns) (uuid params : String) :
    transcodeAndSegmentProcessor fns uuid params =
      trackContentUploadProcessor fns uuid params := rfl

/-- C5 failing input: `findCIDInNetwork` unlinks a fetched file whose
bytes do not hash to the requested cid, yet still returns `found = true`. -/
theorem findCIDInNetwork_true_on_hash_mismatch :
    findCIDInNetwork (fun s => s) false "/file_storage/QmX" "QmX"
        [FetchAttempt.withData "corrupt-bytes"] [] =
      ⟨true, []⟩
    ∧ (fun s : String => s) "corrupt-bytes" ≠ "QmX" := by
  constructor
  · rfl
  · decide

/-- C3 failing input: with `walletPublicKeys = [0xAA, 0xBB]` and 0xBB's
lock already held by another executor, `processSync` acquires 0xAA's lock,
then returns the SyncInProgress error for 0xBB without entering the
try/finally — leaving 0xAA's lock held and no export issued. -/
theorem processSync_lock_leak_on_held_later_wallet :
    (processSync 3 (fun _ => true) [] ["0xAA", "0xBB"] false
        { db := ⟨[], [], [], [], []⟩
          locks := [getNodeSyncRedisKey "0xBB"]
          failureCounts := [] }).errorObj = some (SyncError.syncInProgress "0xBB")
    ∧ getNodeSyncRedisKey "0xAA" ∈
        (processSync 3 (fun _ => true) [] ["0xAA", "0xBB"] false
          { db := ⟨[], [], [], [], []⟩
            locks := [getNodeSyncRedisKey "0xBB"]
            failureCounts := [] }).state.locks
    ∧ (processSync 3 (fun _ => true) [] ["0xAA", "0xBB"] false
        { db := ⟨[], [], [], [], []⟩
          locks := [getNodeSyncRedisKey "0xBB"]
          failureCounts := [] }).exportReq = none := by
  refine ⟨by decide, by decide, by decide⟩

/-- A terminating `_recoverNodeL1Identity` run found a non-zero spID at
its last attempt, every earlier attempt was preceded by a fixed 5000 ms
wait, and the start index is below the attempt count. -/
theorem recoverNodeL1Identity_some (oracle : Nat → Except String Nat) :
    ∀ (fuel n : Nat) (r : RecoveryOutcome),
      recoverNodeL1Identity oracle fuel n = some r →
      r.spID ≠ 0 ∧ oracle (r.attempts - 1) = Except.ok r.spID
        ∧ r.waitsMs = List.replicate (r.attempts - 1 - n) 5000 ∧ n < r.attempts := by
  intro fuel
  induction fuel with
  | zero => intro n r h; simp [recoverNodeL1Identity] at h
  | succ fuel ih =>
    intro n r h
    rw [recoverNodeL1Identity] at h
    cases horacle : oracle n with
    | ok spID =>
      simp only [horacle] at h
      by_cases hz : spID ≠ 0
      · rw [if_pos hz] at h
        have hr : (⟨spID, n + 1, []⟩ : RecoveryOutcome) = r := Option.some_injective _ h
        subst hr
        dsimp only
        refine ⟨hz, by simpa using horacle, by simp, by omega⟩
      · rw [if_neg hz] at h
        cases hrec : recoverNodeL1Identity oracle fuel (n + 1) with
        | none => rw [hrec] at h; simp at h
        | some r' =>
          rw [hrec] at h
          have hr : ({ r' with waitsMs := 5000 :: r'.waitsMs } : RecoveryOutcome) = r := by
            simpa using h
          obtain ⟨h1, h2, h3, h4⟩ := ih (n + 1) r' hrec
          subst hr
          dsimp only
          refine ⟨h1, h2, ?_, by omega⟩
          rw [h3]
          have heq : r'.attempts - 1 - n = (r'.attempts - 1 - (n + 1)) + 1 := by omega
          rw [heq, List.replicate_succ]
    | error e =>
      simp only [horacle] at h
      cases hrec : recoverNodeL1Identity oracle fuel (n + 1) with
      | none => rw [hrec] at h; simp at h
      | some r' =>
        rw [hrec] at h
        have hr : ({ r' with waitsMs := 5000 :: r'.waitsMs } : RecoveryOutcome) = r := by
          simpa using h
        obtain ⟨h1, h2, h3, h4⟩ := ih (n + 1) r' hrec
        subst hr
        dsimp only
        refine ⟨h1, h2, ?_, by omega⟩
        rw [h3]
        have heq : r'.attempts - 1 - n = (r'.attempts - 1 - (n + 1)) + 1 := by omega
        rw [heq, List.replicate_succ]

/-- While the chain keeps resolving the endpoint to spID 0 (or throwing),
`_recoverNodeL1Identity` never completes. -/
theorem recoverNodeL1Identity_none_of_zero (oracle : Nat → Except String Nat)
    (h : ∀ n s, oracle n = Except.ok s → s = 0) :
    ∀ (fuel n : Nat), recoverNodeL1Identity oracle fuel n = none := by
  intro fuel
  induction fuel with
  | zero => intro n; rfl
  | succ fuel ih =>
    intro n
    rw [recoverNodeL1Identity]
    cases horacle : oracle n with
    | ok s =>
      have hz : s = 0 := h n s horacle
      subst hz
      simp [ih (n + 1)]
    | error e => simp [ih (n + 1)]

/-- Every wait of the URSM-contract polling loop equals the configured
interval (10 s in dev mode, 10 min otherwise). -/
theorem waitForURSMClient_waits (devMode : Bool) (clientReady : Nat → Except String Bool) :
    ∀ (fuel n : Nat) (ws : List Nat),
      waitForURSMClient devMode clientReady fuel n = some ws →
      ∀ w ∈ ws, w = ursmPollIntervalMs devMode := by
  intro fuel
  induction fuel with
  | zero => intro n ws h; simp [waitForURSMClient] at h
  | succ fuel ih =>
    intro n ws h
    rw [waitForURSMClient] at h
    cases hc : clientReady n with
    | ok b =>
      rw [hc] at h
      cases b with
      | true =>
        obtain rfl : ([] : List Nat) = ws := Option.some_injective _ h
        intro w hw; simp at hw
      | false =>
        cases hrec : waitForURSMClient devMode clientReady fuel (n + 1) with
        | none => rw [hrec] at h; simp at h
        | some ws' =>
          rw [hrec] at h
          obtain rfl : ursmPollIntervalMs devMode :: ws' = ws :=
            Option.some_injective _ (by simpa using h)
          intro w hw
          rcases List.mem_cons.mp hw with h' | h'
          · exact h'
          · exact ih (n + 1) ws' hrec w h'
    | error e =>
      rw [hc] at h
      cases hrec : waitForURSMClient devMode clientReady fuel (n + 1) with
      | none => rw [hrec] at h; simp at h
      | some ws' =>
        rw [hrec] at h
        obtain rfl : ursmPollIntervalMs devMode :: ws' = ws :=
          Option.some_injective _ (by simpa using h)
        intro w hw
        rcases List.mem_cons.mp hw with h' | h'
        · exact h'
        · exact ih (n + 1) ws' hrec w h'

/-- A terminating registration loop ends on a successful
`URSMRegistrationManager.run()` attempt, with a fixed 10 s wait after each
failed attempt. -/
theorem registerWithRetries_some (register : Nat → Except String Unit) :
    ∀ (fuel n k : Nat) (ws : List Nat),
      registerWithRetries register fuel n = some (k, ws) →
      register k = Except.ok () ∧ ∀ w ∈ ws, w = 10000 := by
  intro fuel
  induction fuel with
  | zero => intro n k ws h; simp [registerWithRetries] at h
  | succ fuel ih =>
    intro n k ws h
    rw [registerWithRetries] at h
    cases hr : register n with
    | ok u =>
      simp only [hr] at h
      have hpair : (n, ([] : List Nat)) = (k, ws) := Option.some_injective _ h
      have hk : n = k := congrArg Prod.fst hpair
      have hws : ([] : List Nat) = ws := congrArg Prod.snd hpair
      subst hk
      subst hws
      exact ⟨by simpa using hr, by intro w hw; simp at hw⟩
    | error e =>
      simp only [hr] at h
      cases hrec : registerWithRetries register fuel (n + 1) with
      | none => rw [hrec] at h; simp at h
      | some r' =>
        rw [hrec] at h
        have hpair : (r'.1, 10000 :: r'.2) = (k, ws) := by simpa using h
        have hk : r'.1 = k := congrArg Prod.fst hpair
        have hws : 10000 :: r'.2 = ws := congrArg Prod.snd hpair
        subst hk
        subst hws
        obtain ⟨h1, h2⟩ := ih (n + 1) r'.1 r'.2 (by simpa using hrec)
        refine ⟨h1, ?_⟩
        intro w hw
        rcases List.mem_cons.mp hw with h' | h'
        · exact h'
        · exact h2 w h'

/-- C8: the bootstrap loop never completes while the resolved
service-provider ID is 0 — `_recoverNodeL1Identity` retries with a fixed
5000 ms backoff and only terminates after storing a non-zero spID; then
`_registerNodeOnL2URSM` polls for the replica-set registry contract at a
10 s interval in dev mode and a 10 min interval otherwise, and retries
registration at a fixed 10 s interval until an attempt succeeds. -/
theorem bootstrap_retry_loops (oracle : Nat → Except String Nat)
    (devMode : Bool) (clientReady : Nat → Except String Bool)
    (register : Nat → Except String Unit) (fuel : Nat) :
    (∀ r, recoverNodeL1Identity oracle fuel 0 = some r →
      r.spID ≠ 0 ∧ r.waitsMs = List.replicate (r.attempts - 1) 5000)
    ∧ ((∀ n s, oracle n = Except.ok s → s = 0) →
        recoverNodeL1Identity oracle fuel 0 = none)
    ∧ ursmPollIntervalMs true = 10000 ∧ ursmPollIntervalMs false = 600000
    ∧ (∀ ws1 k ws2,
        registerNodeOnL2URSM devMode clientReady register fuel = some (ws1, k, ws2) →
        (∀ w ∈ ws1, w = ursmPollIntervalMs devMode)
          ∧ register k = Except.ok () ∧ (∀ w ∈ ws2, w = 10000)) := by
  refine ⟨?_, ?_, rfl, rfl, ?_⟩
  · intro r h
    obtain ⟨h1, _, h3, _⟩ := recoverNodeL1Identity_some oracle fuel 0 r h
    exact ⟨h1, by simpa using h3⟩
  · intro h
    exact recoverNodeL1Identity_none_of_zero oracle h fuel 0
  · intro ws1 k ws2 h
    rw [registerNodeOnL2URSM] at h
    cases h1 : waitForURSMClient devMode clientReady fuel 0 with
    | none => rw [h1] at h; simp at h
    | some ws1' =>
      rw [h1] at h
      cases h2 : registerWithRetries register fuel 0 with
      | none => rw [h2] at h; simp at h
      | some r' =>
        rw [h2] at h
        have hpair : (ws1', r'.1, r'.2) = (ws1, k, ws2) := by simpa using h
        have hws1 : ws1' = ws1 := congrArg Prod.fst hpair
        have hk : r'.1 = k := congrArg Prod.fst (congrArg Prod.snd hpair)
        have hws2' : r'.2 = ws2 := congrArg Prod.snd (congrArg Prod.snd hpair)
        subst hws1
        subst hk
        subst hws2'
        obtain ⟨hreg, hws2⟩ := registerWithRetries_some register fuel 0 r'.1 r'.2
          (by simpa using h2)
        exact ⟨waitForURSMClient_waits devMode clientReady fuel 0 ws1' h1, hreg, hws2⟩

/-- Witness for C8: the chain returns spID 0 twice, then 7; the URSM
client appears on the second poll; registration fails once, then
succeeds. -/
theorem bootstrap_retry_loops_witness :
    recoverNodeL1Identity (fun n => if n < 2 then Except.ok 0 else Except.ok 7) 5 0 =
        some ⟨7, 3, [5000, 5000]⟩
    ∧ (7 : Nat) ≠ 0 ∧ [5000, 5000] = List.replicate (3 - 1) 5000
    ∧ registerNodeOnL2URSM true
        (fun n => Except.ok (n ≥ 1)) (fun n => if n = 0 then Except.error "e" else Except.ok ()) 5 =
        some ([10000], 1, [10000])
    ∧ (fun n => if n = 0 then Except.error "e" else Except.ok ()) 1 = Except.ok ()
    ∧ ∀ w ∈ [10000], w = 10000 := by
  have hrec : recoverNodeL1Identity (fun n => if n < 2 then Except.ok 0 else Except.ok 7) 5 0 =
      some ⟨7, 3, [5000, 5000]⟩ := by decide
  have hreg : registerNodeOnL2URSM true
      (fun n => Except.ok (n ≥ 1)) (fun n => if n = 0 then Except.error "e" else Except.ok ()) 5 =
      some ([10000], 1, [10000]) := by decide
  have h := bootstrap_retry_loops (fun n => if n < 2 then Except.ok 0 else Except.ok 7) true
    (fun n => Except.ok (n ≥ 1)) (fun n => if n = 0 then Except.error "e" else Except.ok ()) 5
  obtain ⟨hA, _, _, _, hB⟩ := h
  have h1 := hA ⟨7, 3, [5000, 5000]⟩ hrec
  have h2 := hB [10000] 1 [10000] hreg
  exact ⟨hrec, h1.1, h1.2, hreg, h2.2.1, h2.2.2⟩

/-- The per-wallet lock keys are distinct for distinct wallets. -/
theorem getNodeSyncRedisKey_inj {a b : String}
    (h : getNodeSyncRedisKey a = getNodeSyncRedisKey b) : a = b := by
  have hd := congrArg String.data h
  simp [getNodeSyncRedisKey, String.data_append] at hd
  exact String.ext hd

/-- Filtering out one key leaves lookups of other keys unchanged. -/
theorem lookup_filter_ne {β : Type} (w x : String) (l : List (String × β)) (h : x ≠ w) :
    (l.filter (fun p => p.1 ≠ w)).lookup x = l.lookup x := by
  induction l with
  | nil => rfl
  | cons p rest ih =>
    by_cases hp : p.1 = w
    · have hfilter : (p :: rest).filter (fun q => q.1 ≠ w) = rest.filter (fun q => q.1 ≠ w) := by
        simp [List.filter_cons, hp]
      have h2 : (x == p.1) = false := by
        rw [beq_eq_false_iff_ne, hp]
        exact h
      rw [hfilter, ih]
      simp [List.lookup, h2]
    · have hfilter : (p :: rest).filter (fun q => q.1 ≠ w) =
          p :: rest.filter (fun q => q.1 ≠ w) := by
        simp [List.filter_cons, hp]
      rw [hfilter]
      by_cases hx : x = p.1
      · simp [List.lookup, hx]
      · have h2 : (x == p.1) = false := by
          rw [beq_eq_false_iff_ne]
          exact hx
        simp only [List.lookup, h2]
        exact ih

/-- After filtering out a key, looking it up yields nothing. -/
theorem lookup_filter_self {β : Type} (w : String) (l : List (String × β)) :
    (l.filter (fun p => p.1 ≠ w)).lookup w = none := by
  induction l with
  | nil => rfl
  | cons p rest ih =>
    by_cases hp : p.1 = w
    · have hfilter : (p :: rest).filter (fun q => q.1 ≠ w) = rest.filter (fun q => q.1 ≠ w) := by
        simp [List.filter_cons, hp]
      rw [hfilter]
      exact ih
    · have hfilter : (p :: rest).filter (fun q => q.1 ≠ w) =
          p :: rest.filter (fun q => q.1 ≠ w) := by
        simp [List.filter_cons, hp]
      have h2 : (w == p.1) = false := by
        rw [beq_eq_false_iff_ne]
        exact Ne.symm hp
      rw [hfilter]
      simp only [List.lookup, h2]
      exact ih

/-- Locks already held before the acquisition loop are still held after it. -/
theorem acquireLocks_mem_preserved (l : List String) :
    ∀ (locks : List String) (x : String), x ∈ locks → x ∈ (acquireLocks l locks).2 := by
  induction l with
  | nil => intro locks x hx; exact hx
  | cons w rest ih =>
    intro locks x hx
    rw [acquireLocks]
    by_cases h : getLock (getNodeSyncRedisKey w) locks = true
    · simp only [h, if_true]
      exact hx
    · simp only [Bool.not_eq_true] at h
      simp only [h, Bool.false_eq_true, if_false]
      exact ih (setLock (getNodeSyncRedisKey w) locks) x (List.mem_cons_of_mem _ hx)

/-- With distinct wallets whose lock keys are all free, the acquisition
loop succeeds (no SyncInProgress early return). -/
theorem acquireLocks_none_of_nodup (l : List String) :
    ∀ locks : List String, l.Nodup → (∀ w ∈ l, getNodeSyncRedisKey w ∉ locks) →
      (acquireLocks l locks).1 = none := by
  induction l with
  | nil => intro locks _ _; rfl
  | cons w rest ih =>
    intro locks hnd h
    have hw : getNodeSyncRedisKey w ∉ locks := h w (List.mem_cons_self w rest)
    have hlock : getLock (getNodeSyncRedisKey w) locks = false := by
      simp [getLock]
      exact hw
    rw [acquireLocks]
    simp only [hlock, Bool.false_eq_true, if_false]
    refine ih (setLock (getNodeSyncRedisKey w) locks) (List.Nodup.of_cons hnd) ?_
    intro w' hw' hmem
    rcases List.mem_cons.mp hmem with heq | hmem'
    · have hww : w' = w := getNodeSyncRedisKey_inj heq
      subst hww
      exact (List.nodup_cons.mp hnd).1 hw'
    · exact h w' (List.mem_cons_of_mem _ hw') hmem'

/-- When the acquisition loop succeeds, every wallet's lock key is held
afterwards. -/
theorem acquireLocks_mem_of_mem (l : List String) :
    ∀ (locks : List String) (w : String), (acquireLocks l locks).1 = none → w ∈ l →
      getNodeSyncRedisKey w ∈ (acquireLocks l locks).2 := by
  induction l with
  | nil => intro locks w _ hw; simp at hw
  | cons w0 rest ih =>
    intro locks w hnone hw
    rw [acquireLocks] at hnone ⊢
    by_cases h : getLock (getNodeSyncRedisKey w0) locks = true
    · simp only [h, if_true] at hnone
      simp at hnone
    · simp only [Bool.not_eq_true] at h
      simp only [h, Bool.false_eq_true, if_false] at hnone ⊢
      rcases List.mem_cons.mp hw with heq | hmem
      · subst heq
        exact acquireLocks_mem_preserved rest _ _ (List.mem_cons_self _ _)
      · exact ih (setLock (getNodeSyncRedisKey w0) locks) w hnone hmem

/-- Reduction of `processSync` for a single-wallet job starting with no
held locks: the lock is taken, the baseline read from the stored user row,
the export requested from the next clock value, the per-user loop run, and
the lock released at the end. -/
theorem processSync_singleton (threshold : Nat) (saveOk : String → Bool)
    (exportedUsers : List FetchedCNodeUser) (w : String) (st : SyncState)
    (hl : st.locks = []) :
    processSync threshold saveOk exportedUsers [w] false st =
      { errorObj := (processCNodeUsers threshold saveOk [w]
          ((st.db.users.lookup w).elim (-1) CNodeUserRow.clock)
          (some (getNodeSyncRedisKey w)) st.db st.failureCounts
          [getNodeSyncRedisKey w] exportedUsers).1
        state :=
          { db := (processCNodeUsers threshold saveOk [w]
              ((st.db.users.lookup w).elim (-1) CNodeUserRow.clock)
              (some (getNodeSyncRedisKey w)) st.db st.failureCounts
              [getNodeSyncRedisKey w] exportedUsers).2.1
            locks := removeLock (getNodeSyncRedisKey w)
              (processCNodeUsers threshold saveOk [w]
                ((st.db.users.lookup w).elim (-1) CNodeUserRow.clock)
                (some (getNodeSyncRedisKey w)) st.db st.failureCounts
                [getNodeSyncRedisKey w] exportedUsers).2.2.2
            failureCounts := (processCNodeUsers threshold saveOk [w]
              ((st.db.users.lookup w).elim (-1) CNodeUserRow.clock)
              (some (getNodeSyncRedisKey w)) st.db st.failureCounts
              [getNodeSyncRedisKey w] exportedUsers).2.2.1 }
        exportReq := some ⟨[w], ((st.db.users.lookup w).elim (-1) CNodeUserRow.clock) + 1⟩ } := by
  obtain ⟨db, locks, fc⟩ := st
  simp only at hl
  subst hl
  rfl

/-- Regression branch of the per-user loop body: a fetched clock below the
local max clock value is rejected before the transaction. -/
theorem processFetchedCNodeUser_regression (threshold : Nat) (saveOk : String → Bool)
    (wps : List String) (localMaxClockVal : Int) (db : DB) (fc : List (String × Nat))
    (u : FetchedCNodeUser) (hmem : wps.contains u.walletPublicKey = true)
    (hlt : u.clock < localMaxClockVal) :
    processFetchedCNodeUser threshold saveOk wps localMaxClockVal db fc u =
      UserSyncOutcome.preTransactionError
        (SyncError.exportRegression localMaxClockVal u.clock) := by
  rw [processFetchedCNodeUser]
  rw [if_neg (fun hcon => hcon hmem), if_pos hlt]

/-- Already-up-to-date branch of the per-user loop body: equal clocks skip
the user. -/
theorem processFetchedCNodeUser_skip (threshold : Nat) (saveOk : String → Bool)
    (wps : List String) (localMaxClockVal : Int) (db : DB) (fc : List (String × Nat))
    (u : FetchedCNodeUser) (hmem : wps.contains u.walletPublicKey = true)
    (heq : u.clock = localMaxClockVal) :
    processFetchedCNodeUser threshold saveOk wps localMaxClockVal db fc u =
      UserSyncOutcome.skippedUser := by
  rw [processFetchedCNodeUser]
  rw [if_neg (fun hcon => hcon hmem), if_neg (by omega), if_pos heq]

/-- Non-contiguity branch of the per-user loop body: a non-negative local
clock and a first fetched clock record that is not `localMaxClockVal + 1`
are rejected before the transaction. -/
theorem processFetchedCNodeUser_noncontiguous (threshold : Nat) (saveOk : String → Bool)
    (wps : List String) (localMaxClockVal : Int) (db : DB) (fc : List (String × Nat))
    (u : FetchedCNodeUser) (r0 : ClockRecordRow)
    (hmem : wps.contains u.walletPublicKey = true)
    (hgt : localMaxClockVal < u.clock)
    (hr0 : u.clockRecords.head? = some r0)
    (hne : localMaxClockVal ≠ -1)
    (hmis : r0.clock ≠ localMaxClockVal + 1) :
    processFetchedCNodeUser threshold saveOk wps localMaxClockVal db fc u =
      UserSyncOutcome.preTransactionError
        (SyncError.exportNonContiguous localMaxClockVal r0.clock) := by
  rw [processFetchedCNodeUser]
  rw [if_neg (fun hcon => hcon hmem), if_neg (by omega), if_neg (by omega),
    if_pos ⟨hne, by simp [firstClockMismatch, hr0, hmis]⟩]
  simp [hr0]

/-- Content-fetch branch of the per-user loop body: when every clock check
passes, the outcome is decided by the failed-CID count against the
failure threshold. -/
theorem processFetchedCNodeUser_content (threshold : Nat) (saveOk : String → Bool)
    (wps : List String) (localMaxClockVal : Int) (db : DB) (fc : List (String × Nat))
    (u : FetchedCNodeUser)
    (hmem : wps.contains u.walletPublicKey = true)
    (hgt : localMaxClockVal < u.clock)
    (hnm : ¬ (localMaxClockVal ≠ -1 ∧ firstClockMismatch u.clockRecords localMaxClockVal = true)) :
    processFetchedCNodeUser threshold saveOk wps localMaxClockVal db fc u =
      if 0 < (failedCIDs saveOk u).length then
        if (incrementFailureCount u.walletPublicKey fc).1 < threshold then
          UserSyncOutcome.transactionError
            (SyncError.contentFetchFailed (failedCIDs saveOk u).length
              (incrementFailureCount u.walletPublicKey fc).1)
            (incrementFailureCount u.walletPublicKey fc).2
        else
          UserSyncOutcome.committedUser
            (commitFetchedCNodeUser u (failedCIDs saveOk u) db)
            (resetFailureCount u.walletPublicKey (incrementFailureCount u.walletPublicKey fc).2)
      else
        UserSyncOutcome.committedUser
          (commitFetchedCNodeUser u (failedCIDs saveOk u) db)
          (resetFailureCount u.walletPublicKey fc) := by
  rw [processFetchedCNodeUser]
  rw [if_neg (fun hcon => hcon hmem), if_neg (by omega), if_neg (by omega), if_neg hnm]

/-- C1: for a sync with a non-negative local clock value, a fetched clock
below the local clock fails with the export-regression error; equal
clocks skip the user with no database change; and a strictly greater
fetched clock whose first clock record is not local clock + 1 fails with
the non-contiguity error, raised before any transaction is opened
(`preTransactionError`), leaving the local database unchanged. -/
theorem processSync_clock_comparison_checks (threshold : Nat) (saveOk : String → Bool)
    (st : SyncState) (w : String) (u : FetchedCNodeUser) (row : CNodeUserRow)
    (hl : st.locks = [])
    (hrow : st.db.users.lookup w = some row)
    (h0 : 0 ≤ row.clock)
    (hw : u.walletPublicKey = w) :
    (u.clock < row.clock →
      (processSync threshold saveOk [u] [w] false st).errorObj =
          some (SyncError.exportRegression row.clock u.clock)
        ∧ (processSync threshold saveOk [u] [w] false st).state.db = st.db
        ∧ processFetchedCNodeUser threshold saveOk [w] row.clock st.db st.failureCounts u =
            UserSyncOutcome.preTransactionError
              (SyncError.exportRegression row.clock u.clock))
    ∧ (u.clock = row.clock →
      (processSync threshold saveOk [u] [w] false st).errorObj = none
        ∧ (processSync threshold saveOk [u] [w] false st).state.db = st.db
        ∧ (processSync threshold saveOk [u] [w] false st).state.failureCounts =
            st.failureCounts)
    ∧ (∀ r0 : ClockRecordRow, row.clock < u.clock → u.clockRecords.head? = some r0 →
        r0.clock ≠ row.clock + 1 →
      (processSync threshold saveOk [u] [w] false st).errorObj =
          some (SyncError.exportNonContiguous row.clock r0.clock)
        ∧ (processSync threshold saveOk [u] [w] false st).state.db = st.db
        ∧ processFetchedCNodeUser threshold saveOk [w] row.clock st.db st.failureCounts u =
            UserSyncOutcome.preTransactionError
              (SyncError.exportNonContiguous row.clock r0.clock)) := by
  have hmem : ([w].contains u.walletPublicKey) = true := by simp [hw]
  have hred := processSync_singleton threshold saveOk [u] w st hl
  have hbase : ((st.db.users.lookup w).elim (-1) CNodeUserRow.clock) = row.clock := by
    rw [hrow]
    rfl
  rw [hbase] at hred
  refine ⟨?_, ?_, ?_⟩
  · intro hlt
    have hu := processFetchedCNodeUser_regression threshold saveOk [w] row.clock
      st.db st.failureCounts u hmem hlt
    rw [hred]
    constructor
    · rw [processCNodeUsers, hu]
    constructor
    · rw [processCNodeUsers, hu]
    · exact hu
  · intro heq
    have hu := processFetchedCNodeUser_skip threshold saveOk [w] row.clock
      st.db st.failureCounts u hmem heq
    rw [hred]
    refine ⟨?_, ?_, ?_⟩ <;> rw [processCNodeUsers, hu] <;> rfl
  · intro r0 hgt hr0 hmis
    have hne : row.clock ≠ -1 := by omega
    have hu := processFetchedCNodeUser_noncontiguous threshold saveOk [w] row.clock
      st.db st.failureCounts u r0 hmem hgt hr0 hne hmis
    rw [hred]
    constructor
    · rw [processCNodeUsers, hu]
    constructor
    · rw [processCNodeUsers, hu]
    · exact hu

/-- Witness for C1 at a concrete non-contiguous export: the secondary
stores clock 3 and the export jumps to clock record 6. -/
theorem processSync_clock_comparison_checks_witness :
    (processSync 3 (fun _ => true)
        [{ walletPublicKey := "0xAA", clock := 7, latestBlockNumber := 0,
           clockRecords := [⟨6⟩], files := [], tracks := [], audiusUsers := [] }]
        ["0xAA"] false scenarioState).errorObj =
      some (SyncError.exportNonContiguous 3 6)
    ∧ (processSync 3 (fun _ => true)
        [{ walletPublicKey := "0xAA", clock := 7, latestBlockNumber := 0,
           clockRecords := [⟨6⟩], files := [], tracks := [], audiusUsers := [] }]
        ["0xAA"] false scenarioState).state.db = scenarioState.db := by
  have h := processSync_clock_comparison_checks 3 (fun _ => true) scenarioState "0xAA"
    { walletPublicKey := "0xAA", clock := 7, latestBlockNumber := 0,
      clockRecords := [⟨6⟩], files := [], tracks := [], audiusUsers := [] }
    ⟨3, 5⟩ rfl (by decide) (by decide) rfl
  have h3 := h.2.2 ⟨6⟩ (by decide) rfl (by decide)
  exact ⟨h3.1, h3.2.1⟩

/-- C9: when the local clock is non-negative, the fetched user's clock
strictly greater, and the export's clockRecords array empty, processSync
raises no non-contiguity error (the falsy `fetchedClockRecords[0]` guard
skips the check) and proceeds to commit: the user row ends at the higher
fetched clock while no new clock records are inserted. -/
theorem processSync_empty_clock_records_commits (threshold : Nat) (saveOk : String → Bool)
    (st : SyncState) (w : String) (u : FetchedCNodeUser) (row : CNodeUserRow)
    (hl : st.locks = []) (hrow : st.db.users.lookup w = some row) (h0 : 0 ≤ row.clock)
    (hw : u.walletPublicKey = w) (hgt : row.clock < u.clock) (hcr : u.clockRecords = [])
    (hsave : ∀ m, saveOk m = true) :
    (processSync threshold saveOk [u] [w] false st).errorObj = none
    ∧ (processSync threshold saveOk [u] [w] false st).state.db.users.lookup w =
        some ⟨u.clock, u.latestBlockNumber⟩
    ∧ (processSync threshold saveOk [u] [w] false st).state.db.clockRecords =
        st.db.clockRecords := by
  have hmem : ([w].contains u.walletPublicKey) = true := by simp [hw]
  have hred := processSync_singleton threshold saveOk [u] w st hl
  have hbase : ((st.db.users.lookup w).elim (-1) CNodeUserRow.clock) = row.clock := by
    rw [hrow]
    rfl
  rw [hbase] at hred
  have hnm : ¬ (row.clock ≠ -1 ∧ firstClockMismatch u.clockRecords row.clock = true) := by
    rw [hcr]
    simp [firstClockMismatch]
  have hfailed : failedCIDs saveOk u = [] := by
    refine List.filter_eq_nil_iff.mpr ?_
    intro m _
    simp [hsave m]
  have hu := processFetchedCNodeUser_content threshold saveOk [w] row.clock st.db
    st.failureCounts u hmem hgt hnm
  rw [hfailed, if_neg (by simp)] at hu
  rw [hred]
  refine ⟨?_, ?_, ?_⟩
  · simp only [processCNodeUsers, hu]
  · simp only [processCNodeUsers, hu]
    rw [commitFetchedCNodeUser]
    subst hw
    simp [List.lookup]
  · simp only [processCNodeUsers, hu]
    rw [commitFetchedCNodeUser]
    simp [hcr]

/-- Witness for C9: secondary at clock 3, export reporting clock 9 with an
empty clockRecords array. -/
theorem processSync_empty_clock_records_commits_witness :
    (processSync 3 (fun _ => true)
        [{ walletPublicKey := "0xAA", clock := 9, latestBlockNumber := 44,
           clockRecords := [], files := [], tracks := [], audiusUsers := [] }]
        ["0xAA"] false scenarioState).errorObj = none
    ∧ (processSync 3 (fun _ => true)
        [{ walletPublicKey := "0xAA", clock := 9, latestBlockNumber := 44,
           clockRecords := [], files := [], tracks := [], audiusUsers := [] }]
        ["0xAA"] false scenarioState).state.db.users.lookup "0xAA" = some ⟨9, 44⟩
    ∧ (processSync 3 (fun _ => true)
        [{ walletPublicKey := "0xAA", clock := 9, latestBlockNumber := 44,
           clockRecords := [], files := [], tracks := [], audiusUsers := [] }]
        ["0xAA"] false scenarioState).state.db.clockRecords =
        scenarioState.db.clockRecords :=
  processSync_empty_clock_records_commits 3 (fun _ => true) scenarioState "0xAA"
    { walletPublicKey := "0xAA", clock := 9, latestBlockNumber := 44,
      clockRecords := [], files := [], tracks := [], audiusUsers := [] }
    ⟨3, 5⟩ rfl (by decide) (by decide) rfl (by decide) rfl (fun _ => rfl)

/-- C2: when at least one CID fetch fails, processSync increments the
per-user sync failure count; below the threshold (default 3) the sync
fails with ContentFetchFailed and nothing is committed; at or above it the
sync continues, every file whose multihash is in the failed set is
inserted with skipped = true, and the counter resets to 0.  In particular,
three consecutive identical attempts with 2 failing fetches out of 10
files fail, fail, then succeed with 2 skipped files and counter 0. -/
theorem processSync_content_failure_gating (threshold : Nat) (saveOk : String → Bool)
    (st : SyncState) (w : String) (u : FetchedCNodeUser) (localMax : Int) (cnt : Nat)
    (hl : st.locks = [])
    (hbase : (st.db.users.lookup w).elim (-1) CNodeUserRow.clock = localMax)
    (hw : u.walletPublicKey = w)
    (hgt : localMax < u.clock)
    (hnm : ¬ (localMax ≠ -1 ∧ firstClockMismatch u.clockRecords localMax = true))
    (hfail : 0 < (failedCIDs saveOk u).length)
    (hcnt : ((st.failureCounts.lookup w).getD 0) + 1 = cnt) :
    (cnt < threshold →
      (processSync threshold saveOk [u] [w] false st).errorObj =
          some (SyncError.contentFetchFailed (failedCIDs saveOk u).length cnt)
        ∧ (processSync threshold saveOk [u] [w] false st).state.db = st.db
        ∧ (processSync threshold saveOk [u] [w] false st).state.failureCounts.lookup w =
            some cnt)
    ∧ (threshold ≤ cnt →
      (processSync threshold saveOk [u] [w] false st).errorObj = none
        ∧ (processSync threshold saveOk [u] [w] false st).state.failureCounts.lookup w =
            some 0
        ∧ ∀ f ∈ u.files, f.multihash ∈ failedCIDs saveOk u →
            f.fileType ∈ TrackTypes ∨ f.fileType ∈ NonTrackTypes →
            ∃ f', (w, f') ∈ (processSync threshold saveOk [u] [w] false st).state.db.files
              ∧ f'.multihash = f.multihash ∧ f'.skipped = true)
    ∧ ((scenarioAttempt scenarioState).errorObj = some (SyncError.contentFetchFailed 2 1)
        ∧ (scenarioAttempt scenarioState).state.db = scenarioState.db
        ∧ (scenarioAttempt scenarioState).state.failureCounts = [("0xAA", 1)]
        ∧ (scenarioAttempt (scenarioAttempt scenarioState).state).errorObj =
            some (SyncError.contentFetchFailed 2 2)
        ∧ (scenarioAttempt (scenarioAttempt scenarioState).state).state.db = scenarioState.db
        ∧ (scenarioAttempt (scenarioAttempt scenarioState).state).state.failureCounts =
            [("0xAA", 2)]
        ∧ (scenarioAttempt (scenarioAttempt (scenarioAttempt
            scenarioState).state).state).errorObj = none
        ∧ (scenarioAttempt (scenarioAttempt (scenarioAttempt
            scenarioState).state).state).state.failureCounts = [("0xAA", 0)]
        ∧ (scenarioAttempt (scenarioAttempt (scenarioAttempt
            scenarioState).state).state).state.db.users.lookup "0xAA" = some ⟨7, 12⟩
        ∧ ((scenarioAttempt (scenarioAttempt (scenarioAttempt
            scenarioState).state).state).state.db.files.filter
              (fun p => p.2.skipped)).map (fun p => p.2.multihash) = ["Qm0", "Qm1"]) := by
  have hmem : ([w].contains u.walletPublicKey) = true := by simp [hw]
  have hred := processSync_singleton threshold saveOk [u] w st hl
  rw [hbase] at hred
  have hu := processFetchedCNodeUser_content threshold saveOk [w] localMax st.db
    st.failureCounts u hmem hgt hnm
  rw [if_pos hfail] at hu
  have hincr1 : (incrementFailureCount u.walletPublicKey st.failureCounts).1 = cnt := by
    rw [hw]
    simp [incrementFailureCount, hcnt]
  have hincr2 : (incrementFailureCount u.walletPublicKey st.failureCounts).2 =
      (w, cnt) :: st.failureCounts.filter (fun p => p.1 ≠ w) := by
    rw [hw]
    simp [incrementFailureCount, hcnt]
  rw [hincr1] at hu
  refine ⟨?_, ?_, by decide⟩
  · intro hlt
    rw [if_pos hlt] at hu
    rw [hred]
    refine ⟨?_, ?_, ?_⟩
    · simp only [processCNodeUsers, hu]
    · simp only [processCNodeUsers, hu]
    · simp only [processCNodeUsers, hu, hincr2]
      simp [List.lookup]
  · intro hge
    rw [if_neg (by omega)] at hu
    rw [hred]
    refine ⟨?_, ?_, ?_⟩
    · simp only [processCNodeUsers, hu]
    · simp only [processCNodeUsers, hu, resetFailureCount, hw]
      simp [List.lookup]
    · intro f hf hfailedmem htype
      simp only [processCNodeUsers, hu]
      simp only [commitFetchedCNodeUser, hw]
      rcases htype with hT | hNT
      · refine ⟨{ f with skipped := true }, ?_, rfl, rfl⟩
        have hmemtrack : f ∈ trackFilesOf u :=
          List.mem_filter.mpr ⟨hf, by simp [hT]⟩
        refine List.mem_append.mpr (Or.inr ?_)
        refine List.mem_map.mpr ⟨f, hmemtrack, ?_⟩
        simp [hfailedmem]
      · by_cases hdir : f ∈ trackFilesOf u
        · refine ⟨{ f with skipped := true }, ?_, rfl, rfl⟩
          refine List.mem_append.mpr (Or.inr ?_)
          refine List.mem_map.mpr ⟨f, hdir, ?_⟩
          simp [hfailedmem]
        · refine ⟨{ f with skipped := true, trackBlockchainId := none }, ?_, rfl, rfl⟩
          have hmemnt : f ∈ nonTrackFilesOf u :=
            List.mem_filter.mpr ⟨hf, by simp [hNT]⟩
          refine List.mem_append.mpr (Or.inl (List.mem_append.mpr (Or.inr ?_)))
          refine List.mem_map.mpr ⟨f, hmemnt, ?_⟩
          simp [hfailedmem]

/-- Witness for C2 at the literal scenario: first attempt fails with the
counter at 1 and nothing committed; the third identical attempt succeeds
with the counter reset to 0. -/
theorem processSync_content_failure_gating_witness :
    ((scenarioAttempt scenarioState).errorObj =
        some (SyncError.contentFetchFailed (failedCIDs scenarioSaveOk scenarioUser).length 1)
      ∧ (scenarioAttempt scenarioState).state.db = scenarioState.db
      ∧ (scenarioAttempt scenarioState).state.failureCounts.lookup "0xAA" = some 1)
    ∧ (scenarioAttempt (scenarioAttempt (scenarioAttempt
        scenarioState).state).state).errorObj = none
    ∧ (scenarioAttempt (scenarioAttempt (scenarioAttempt
        scenarioState).state).state).state.failureCounts = [("0xAA", 0)] := by
  have h := processSync_content_failure_gating 3 scenarioSaveOk scenarioState "0xAA"
    scenarioUser 3 1 rfl (by decide) rfl (by decide) (by decide) (by decide) (by decide)
  obtain ⟨hA, _, _, _, _, _, _, _, e3, fc3, _⟩ := h
  exact ⟨hA (by decide), e3, fc3⟩

/-- When lock acquisition succeeds, processSync issues the export request
with `clock_range_min` equal to the first wallet's baseline plus one. -/
theorem processSync_exportReq_of_acquire_none (threshold : Nat) (saveOk : String → Bool)
    (exportedUsers : List FetchedCNodeUser) (wps : List String) (force : Bool)
    (st : SyncState) (h : (acquireLocks wps st.locks).1 = none) :
    (processSync threshold saveOk exportedUsers wps force st).exportReq =
      some ⟨wps, (computeLocalMaxClockVal force (wps.headD "") st.db).2 + 1⟩ := by
  rw [processSync]
  rcases hA : acquireLocks wps st.locks with ⟨o, L⟩
  rw [hA] at h
  cases o with
  | some w => simp at h
  | none => rfl

/-- When lock acquisition succeeds and the export carries no users, the
database after processSync is exactly the baseline database (truncated
under force resync, untouched otherwise). -/
theorem processSync_db_of_acquire_none_nil (threshold : Nat) (saveOk : String → Bool)
    (wps : List String) (force : Bool) (st : SyncState)
    (h : (acquireLocks wps st.locks).1 = none) :
    (processSync threshold saveOk [] wps force st).state.db =
      (computeLocalMaxClockVal force (wps.headD "") st.db).1 := by
  rw [processSync]
  rcases hA : acquireLocks wps st.locks with ⟨o, L⟩
  rw [hA] at h
  cases o with
  | some w => simp at h
  | none => rfl

/-- C4: with force_resync all local data of the wallet is deleted and the
baseline set to -1; otherwise the baseline is the stored user's clock, or
-1 when no user row exists; and the export request always carries
`clock_range_min = baseline + 1`. -/
theorem processSync_force_resync_baseline (threshold : Nat) (saveOk : String → Bool)
    (exportedUsers : List FetchedCNodeUser) (st : SyncState) (w : String)
    (rest : List String) (force : Bool)
    (hl : st.locks = []) (hnd : (w :: rest).Nodup) :
    ((computeLocalMaxClockVal true w st.db).2 = -1
      ∧ (computeLocalMaxClockVal true w st.db).1 = deleteAllCNodeUserDataFromDB w st.db
      ∧ (computeLocalMaxClockVal true w st.db).1.users.lookup w = none
      ∧ (∀ p ∈ (computeLocalMaxClockVal true w st.db).1.clockRecords, p.1 ≠ w)
      ∧ (∀ p ∈ (computeLocalMaxClockVal true w st.db).1.files, p.1 ≠ w))
    ∧ ((computeLocalMaxClockVal false w st.db).1 = st.db
      ∧ (∀ row, st.db.users.lookup w = some row →
          (computeLocalMaxClockVal false w st.db).2 = row.clock)
      ∧ (st.db.users.lookup w = none → (computeLocalMaxClockVal false w st.db).2 = -1))
    ∧ (processSync threshold saveOk exportedUsers (w :: rest) force st).exportReq =
        some ⟨w :: rest, (computeLocalMaxClockVal force w st.db).2 + 1⟩ := by
  have hacq : (acquireLocks (w :: rest) st.locks).1 = none := by
    refine acquireLocks_none_of_nodup (w :: rest) st.locks hnd ?_
    intro w' _
    rw [hl]
    simp
  refine ⟨⟨rfl, rfl, ?_, ?_, ?_⟩, ⟨rfl, ?_, ?_⟩, ?_⟩
  · exact lookup_filter_self w st.db.users
  · intro p hp
    have := (List.mem_filter.mp hp).2
    simpa using this
  · intro p hp
    have := (List.mem_filter.mp hp).2
    simpa using this
  · intro row hrow
    show (st.db.users.lookup w).elim (-1) CNodeUserRow.clock = row.clock
    rw [hrow]
    rfl
  · intro hnone
    show (st.db.users.lookup w).elim (-1) CNodeUserRow.clock = -1
    rw [hnone]
    rfl
  · exact processSync_exportReq_of_acquire_none threshold saveOk exportedUsers
      (w :: rest) force st hacq

/-- Witness for C4: force resync on a one-user database, both force
settings. -/
theorem processSync_force_resync_baseline_witness :
    ((computeLocalMaxClockVal true "0xAA" scenarioState.db).2 = -1
      ∧ (computeLocalMaxClockVal true "0xAA" scenarioState.db).1.users.lookup "0xAA" = none)
    ∧ (processSync 3 scenarioSaveOk [] ["0xAA"] true scenarioState).exportReq =
        some ⟨["0xAA"], (computeLocalMaxClockVal true "0xAA" scenarioState.db).2 + 1⟩
    ∧ (processSync 3 scenarioSaveOk [] ["0xAA"] false scenarioState).exportReq =
        some ⟨["0xAA"], (computeLocalMaxClockVal false "0xAA" scenarioState.db).2 + 1⟩ := by
  have htrue := processSync_force_resync_baseline 3 scenarioSaveOk [] scenarioState
    "0xAA" [] true rfl (by decide)
  have hfalse := processSync_force_resync_baseline 3 scenarioSaveOk [] scenarioState
    "0xAA" [] false rfl (by decide)
  exact ⟨⟨htrue.1.1, htrue.1.2.2.1⟩, htrue.2.2, hfalse.2.2⟩

/-- C10: with several wallets in the job, the baseline (and the
force-resync truncation) is computed from the first wallet alone — other
wallets' rows survive truncation and their clocks never enter the export
request — even though a lock is acquired for every wallet in the list. -/
theorem processSync_multi_wallet_first_wallet_baseline (threshold : Nat)
    (saveOk : String → Bool) (exportedUsers : List FetchedCNodeUser) (st : SyncState)
    (w1 w2 : String) (rest : List String)
    (hl : st.locks = []) (hnd : (w1 :: w2 :: rest).Nodup) :
    ((processSync threshold saveOk exportedUsers (w1 :: w2 :: rest) false st).exportReq =
        some ⟨w1 :: w2 :: rest, ((st.db.users.lookup w1).elim (-1) CNodeUserRow.clock) + 1⟩)
    ∧ ((processSync threshold saveOk exportedUsers (w1 :: w2 :: rest) true st).exportReq =
        some ⟨w1 :: w2 :: rest, (-1 : Int) + 1⟩)
    ∧ ((processSync threshold saveOk [] (w1 :: w2 :: rest) true st).state.db =
        deleteAllCNodeUserDataFromDB w1 st.db)
    ∧ (∀ w', w' ≠ w1 →
        (deleteAllCNodeUserDataFromDB w1 st.db).users.lookup w' = st.db.users.lookup w')
    ∧ (∀ w' ∈ w1 :: w2 :: rest,
        getNodeSyncRedisKey w' ∈ (acquireLocks (w1 :: w2 :: rest) st.locks).2) := by
  have hacq : (acquireLocks (w1 :: w2 :: rest) st.locks).1 = none := by
    refine acquireLocks_none_of_nodup (w1 :: w2 :: rest) st.locks hnd ?_
    intro w' _
    rw [hl]
    simp
  refine ⟨?_, ?_, ?_, ?_, ?_⟩
  · exact processSync_exportReq_of_acquire_none threshold saveOk exportedUsers
      (w1 :: w2 :: rest) false st hacq
  · exact processSync_exportReq_of_acquire_none threshold saveOk exportedUsers
      (w1 :: w2 :: rest) true st hacq
  · exact processSync_db_of_acquire_none_nil threshold saveOk
      (w1 :: w2 :: rest) true st hacq
  · intro w' hne
    exact lookup_filter_ne w1 w' st.db.users hne
  · intro w' hw'
    exact acquireLocks_mem_of_mem (w1 :: w2 :: rest) st.locks w' hacq hw'

/-- Witness for C10: two wallets with rows at different clocks; the
export's `clock_range_min` follows the first wallet's clock 3, not the
second wallet's clock 9. -/
theorem processSync_multi_wallet_first_wallet_baseline_witness :
    (processSync 3 scenarioSaveOk []
        ["0xAA", "0xBB"] false
        { db :=
            { users := [("0xAA", ⟨3, 5⟩), ("0xBB", ⟨9, 5⟩)]
              clockRecords := []
              files := []
              tracks := []
              audiusUsers := [] }
          locks := []
          failureCounts := [] }).exportReq = some ⟨["0xAA", "0xBB"], 4⟩
    ∧ (deleteAllCNodeUserDataFromDB "0xAA"
        { users := [("0xAA", ⟨3, 5⟩), ("0xBB", ⟨9, 5⟩)]
          clockRecords := []
          files := []
          tracks := []
          audiusUsers := [] }).users.lookup "0xBB" = some ⟨9, 5⟩ := by
  have h := processSync_multi_wallet_first_wallet_baseline 3 scenarioSaveOk []
    { db :=
        { users := [("0xAA", ⟨3, 5⟩), ("0xBB", ⟨9, 5⟩)]
          clockRecords := []
          files := []
          tracks := []
          audiusUsers := [] }
      locks := []
      failureCounts := [] }
    "0xAA" "0xBB" [] rfl (by decide)
  refine ⟨?_, ?_⟩
  · have h1 := h.1
    rw [h1]
    decide
  · have h4 := h.2.2.2.1 "0xBB" (by decide)
    rw [h4]
    decide

end Audius
